import Mathlib

/-!
Shallow embedding of the VaahanBazaar backend's listing core
(`src/routes/bikeRoutes.js`, the scooter model and routes — the bike and
scooter schemas/routes are structurally identical, so one `Listing` type
models both).

Strings in a `Listing` hold the document values after mongoose setters
(`trim`, `lowercase`) have been applied; `engineCapacity`/`batteryCapacity`
are `Option String` with `none` for an absent field.  Prices are modelled
as rationals (schema type `Number`).
-/

/-- A vehicle listing document (bike or scooter — identical schemas).
Only the fields the verified properties touch are carried. -/
structure Listing where
  name : String
  brand : String
  description : String
  type : String
  condition : String
  presentPrice : ℚ
  pastPrice : ℚ
  engineCapacity : Option String
  batteryCapacity : Option String
  availability : String
  isActive : Bool
  viewCount : Nat
deriving Repr, DecidableEq

/-- JavaScript falsiness of an optional string value: `undefined` and the
empty string are falsy (the pre-save hook tests `!this.engineCapacity`). -/
def jsStrFalsy : Option String → Bool
  | none => true
  | some s => s == ""

/-- JavaScript `Math.round` on a rational: round half toward positive
infinity. -/
def jsRound (q : ℚ) : ℤ := ⌊q + 1/2⌋

/-- The `discount` virtual: `if (this.pastPrice && this.presentPrice)`
(number truthiness, i.e. both nonzero) `return Math.round(((pastPrice -
presentPrice) / pastPrice) * 100); return 0`. -/
def discount (b : Listing) : ℤ :=
  if b.pastPrice ≠ 0 ∧ b.presentPrice ≠ 0 then
    jsRound ((b.pastPrice - b.presentPrice) / b.pastPrice * 100)
  else 0

/-- The `priceDifference` virtual. -/
def priceDifference (b : Listing) : ℚ :=
  if b.pastPrice ≠ 0 ∧ b.presentPrice ≠ 0 then b.pastPrice - b.presentPrice
  else 0

/-- The `required` check mongoose applies to a String path: fails when the
value is missing/empty. -/
def requiredStr (v : String) (msg : String) : List String :=
  if v == "" then [msg] else []

/-- Validation error messages produced by the schema's path validators at
save time, for the modelled fields.  A custom or enum validator is skipped
when the path is `undefined`; the conditional capacity validators mirror
`return this.type !== 'Petrol' || (v && v.length > 0)` (and the Electric
counterpart). -/
def validationErrors (b : Listing) : List String :=
  requiredStr b.name "Scooter name is required" ++
  (if b.name.length > 100 then ["Scooter name cannot exceed 100 characters"] else []) ++
  requiredStr b.brand "Brand is required" ++
  (if b.brand.length > 50 then ["Brand cannot exceed 50 characters"] else []) ++
  requiredStr b.condition "Condition is required" ++
  (if b.condition != "" && !(["Excellent", "Good", "Fair", "Poor"].contains b.condition) then
    ["Condition must be one of: Excellent, Good, Fair, Poor"] else []) ++
  (if b.presentPrice < 0 then ["Present price cannot be negative"] else []) ++
  (if b.pastPrice < 0 then ["Original price cannot be negative"] else []) ++
  requiredStr b.type "Scooter type is required" ++
  (if b.type != "" && !(["Petrol", "Electric"].contains b.type) then
    ["Type must be either Petrol or Electric"] else []) ++
  (match b.engineCapacity with
   | none => []
   | some v =>
     if b.type != "Petrol" || v.length > 0 then []
     else ["Engine capacity is required for petrol scooters"]) ++
  (match b.batteryCapacity with
   | none => []
   | some v =>
     if b.type != "Electric" || v.length > 0 then []
     else ["Battery capacity is required for electric scooters"]) ++
  (if b.description.length > 1000 then ["Description cannot exceed 1000 characters"] else [])

/-- The capacity branch of `scooterSchema.pre('save')`: errors when
`type === 'Petrol' && !this.engineCapacity` or
`type === 'Electric' && !this.batteryCapacity`.  (The hook's contact-info
backfill touches fields outside this model.) -/
def preSaveCapacityCheck (b : Listing) : Except String Unit :=
  if b.type == "Petrol" && jsStrFalsy b.engineCapacity then
    Except.error "Engine capacity is required for petrol scooters"
  else if b.type == "Electric" && jsStrFalsy b.batteryCapacity then
    Except.error "Battery capacity is required for electric scooters"
  else Except.ok ()

/-- `document.save()`: path validation runs first (it is the first
pre-save hook mongoose registers); if it passes, the user pre-save hook
runs; a failed save surfaces its error messages. -/
def save (b : Listing) : Except (List String) Listing :=
  if validationErrors b ≠ [] then Except.error (validationErrors b)
  else
    match preSaveCapacityCheck b with
    | Except.error e => Except.error [e]
    | Except.ok _ => Except.ok b

/-- The condition under which the type-conditional capacity rule is
violated: a Petrol listing with an absent/empty `engineCapacity`, or an
Electric listing with an absent/empty `batteryCapacity`. -/
def capacityRuleViolated (b : Listing) : Bool :=
  (b.type == "Petrol" && jsStrFalsy b.engineCapacity) ||
  (b.type == "Electric" && jsStrFalsy b.batteryCapacity)

/-- The error messages of a save outcome (empty on success). -/
def saveErrors : Except (List String) Listing → List String
  | Except.error es => es
  | Except.ok _ => []

/-! ### Query building and filtering (`GET /` list endpoint) -/

/-- The query parameters of the list endpoint, after `parseInt` of
`page`/`limit`/`minPrice`/`maxPrice`; `none` stands for an absent (or
falsy) parameter; defaults mirror the destructuring defaults in the
route. -/
structure ListQuery where
  page : Nat := 1
  limit : Nat := 10
  type : Option String := none
  condition : Option String := none
  minPrice : Option Int := none
  maxPrice : Option Int := none
  brand : Option String := none
  search : Option String := none
  availability : String := "available"
deriving Repr, DecidableEq

/-- The filter object the list route builds and hands to `find` /
`countDocuments`. -/
structure QueryFilter where
  isActive : Bool
  availability : String
  type : Option String
  condition : Option String
  brand : Option String
  minPrice : Option Int
  maxPrice : Option Int
  search : Option String
deriving Repr, DecidableEq

/-- An optional string parameter seen through JavaScript truthiness:
`if (brand) ...` skips both an absent and an empty value. -/
def optTruthy : Option String → Option String
  | none => none
  | some s => if s == "" then none else some s

/-- The route's filter construction: always `isActive: true` and the
availability parameter; `type`/`condition` only when the value is in the
hardcoded enum list; `brand`/`search` when truthy; the price bounds as
given. -/
def buildFilter (q : ListQuery) : QueryFilter :=
  { isActive := true
    availability := q.availability
    type :=
      match q.type with
      | some t => if t != "" && ["Petrol", "Electric"].contains t then some t else none
      | none => none
    condition :=
      match q.condition with
      | some c =>
        if c != "" && ["Excellent", "Good", "Fair", "Poor"].contains c then some c else none
      | none => none
    brand := optTruthy q.brand
    minPrice := q.minPrice
    maxPrice := q.maxPrice
    search := optTruthy q.search }

/-- Whether the first character list occurs contiguously inside the
second. -/
def listInfixOf (needle : List Char) : List Char → Bool
  | [] => needle.isEmpty
  | c :: rest => needle.isPrefixOf (c :: rest) || listInfixOf needle rest

/-- Case-insensitive substring match, modelling the
`{ $regex: s, $options: 'i' }` filters applied to plain text. -/
def containsCI (hay needle : String) : Bool :=
  listInfixOf needle.toLower.toList hay.toLower.toList

/-- Whether a document matches a filter object (the store's query
semantics for the filters this route builds). -/
def matchesFilter (f : QueryFilter) (b : Listing) : Bool :=
  (b.isActive == f.isActive) &&
  (b.availability == f.availability) &&
  (match f.type with | some t => b.type == t | none => true) &&
  (match f.condition with | some c => b.condition == c | none => true) &&
  (match f.brand with | some s => containsCI b.brand s | none => true) &&
  (match f.minPrice with | some m => decide ((m : ℚ) ≤ b.presentPrice) | none => true) &&
  (match f.maxPrice with | some m => decide (b.presentPrice ≤ (m : ℚ)) | none => true) &&
  (match f.search with
   | some s => containsCI b.name s || containsCI b.brand s || containsCI b.description s
   | none => true)

/-! ### Pagination -/

/-- The pagination metadata block the routes return. -/
structure Pagination where
  currentPage : Nat
  totalPages : Nat
  totalCount : Nat
  hasNextPage : Bool
  hasPrevPage : Bool
deriving Repr, DecidableEq

/-- `Math.ceil(n / l)` for natural `n` and positive natural `l`. -/
def ceilDiv (n l : Nat) : Nat := (n + l - 1) / l

/-- Pagination of a query result: `skip((page-1)*limit).limit(limit)`,
plus the metadata computed from the pre-pagination `countDocuments`. -/
def paginate (l : List α) (p lim : Nat) : List α × Pagination :=
  let n := l.length
  let tp := ceilDiv n lim
  ((l.drop ((p - 1) * lim)).take lim,
   { currentPage := p
     totalPages := tp
     totalCount := n
     hasNextPage := decide (p < tp)
     hasPrevPage := decide (1 < p) })

/-! ### The listing store and the route handlers -/

/-- The document collection: records keyed by their unique id. -/
abbrev Store := List (Nat × Listing)

/-- `Model.findById`. -/
def findById (s : Store) (i : Nat) : Option Listing :=
  (s.find? (fun e => e.1 == i)).map (fun e => e.2)

/-- Applying an update to the record with a given id (ids are unique
keys, so updating every matching entry updates the one record). -/
def updateById (s : Store) (i : Nat) (f : Listing → Listing) : Store :=
  s.map (fun e => if e.1 == i then (e.1, f e.2) else e)

/-- `GET /`: build the filter from the query, run the filtered find with
pagination, and return the page plus metadata. -/
def listBikes (s : Store) (q : ListQuery) : List (Nat × Listing) × Pagination :=
  paginate (s.filter (fun e => matchesFilter (buildFilter q) e.2)) q.page q.limit

/-- `incrementViewCount`: `this.viewCount += 1; return this.save()` — the
bumped document is saved, which re-runs path validation and the pre-save
capacity hook and can therefore reject. -/
def incrementViewCount (b : Listing) : Except (List String) Listing :=
  save { b with viewCount := b.viewCount + 1 }

/-- `GET /:id`: `findById`, 404 (`none`) when the id resolves to no
record; otherwise `incrementViewCount()` — a rejected save surfaces as a
server error (`some (Except.error es)`) with nothing persisted and no
record returned, and a successful save stores and returns the bumped
record. -/
def getBikeById (s : Store) (i : Nat) :
    Option (Except (List String) (Store × Listing)) :=
  match findById s i with
  | none => none
  | some b =>
    match incrementViewCount b with
    | Except.error es => some (Except.error es)
    | Except.ok b' => some (Except.ok (updateById s i (fun _ => b'), b'))

/-- `DELETE /:id`: `findByIdAndUpdate(id, { isActive: false }, { new: true })`;
404 (`none`) when the id resolves to no record, otherwise the updated
store and the updated record. -/
def softDelete (s : Store) (i : Nat) : Option (Store × Listing) :=
  match findById s i with
  | none => none
  | some b =>
    some (updateById s i (fun x => { x with isActive := false }), { b with isActive := false })

/-- The static `findByType`: `{ type, availability: 'available',
isActive: true }`. -/
def findByType (s : Store) (t : String) : List (Nat × Listing) :=
  s.filter (fun e => e.2.type == t && e.2.availability == "available" && e.2.isActive)

/-- `GET /type/:type`: reject a type outside the enum with 400, otherwise
the paginated `findByType` result. -/
def getBikesByType (s : Store) (t : String) (p lim : Nat) :
    Except Nat (List (Nat × Listing) × Pagination) :=
  if !(["Petrol", "Electric"].contains t) then Except.error 400
  else Except.ok (paginate (findByType s t) p lim)

/-- The static `findByPriceRange`: `{ presentPrice: { $gte, $lte },
availability: 'available', isActive: true }`. -/
def findByPriceRange (s : Store) (mn mx : Int) : List (Nat × Listing) :=
  s.filter (fun e =>
    decide ((mn : ℚ) ≤ e.2.presentPrice) && decide (e.2.presentPrice ≤ (mx : ℚ)) &&
    e.2.availability == "available" && e.2.isActive)

/-- Digits at the head of a character list, as a number; `none` when there
is no digit (`parseInt` yields `NaN`). -/
def parseDigits (cs : List Char) : Option Nat :=
  let ds := cs.takeWhile Char.isDigit
  if ds.isEmpty then none
  else some (ds.foldl (fun a c => a * 10 + (c.toNat - 48)) 0)

/-- JavaScript `parseInt` (base 10): skip leading whitespace, optional
sign, then the longest digit run; `NaN` (here `none`) when no digit
follows. -/
def parseIntJS (s : String) : Option Int :=
  let cs := s.toList.dropWhile (fun c => c == ' ' || c == '\t' || c == '\n')
  match cs with
  | '-' :: rest => (parseDigits rest).map (fun n => -(n : Int))
  | '+' :: rest => (parseDigits rest).map (fun n => (n : Int))
  | _ => (parseDigits cs).map (fun n => (n : Int))

/-- `GET /price-range/:minPrice/:maxPrice`: `parseInt` both path bounds,
400 when either is `NaN`, negative, or `min > max`; otherwise the
paginated `findByPriceRange` result. -/
def getBikesByPriceRange (s : Store) (minS maxS : String) (p lim : Nat) :
    Except Nat (List (Nat × Listing) × Pagination) :=
  match parseIntJS minS, parseIntJS maxS with
  | some mn, some mx =>
    if mn < 0 || mx < 0 || mn > mx then Except.error 400
    else Except.ok (paginate (findByPriceRange s mn mx) p lim)
  | _, _ => Except.error 400

/-! ### Statistics (`GET /stats/overview`) -/

/-- `Model.countDocuments` with a predicate filter. -/
def countDocuments (s : Store) (p : Listing → Bool) : Nat :=
  (s.filter (fun e => p e.2)).length

/-- The `$group` price aggregates. -/
structure PriceStats where
  avgPrice : ℚ
  minPrice : ℚ
  maxPrice : ℚ
deriving Repr, DecidableEq

/-- The stats payload. -/
structure StatsOverview where
  total : Nat
  available : Nat
  sold : Nat
  petrol : Nat
  electric : Nat
  priceStats : PriceStats
deriving Repr, DecidableEq

/-- `$avg` / `$min` / `$max` of `presentPrice` over the matched group;
with no matched document the route substitutes `{ avgPrice: 0, minPrice:
0, maxPrice: 0 }` (`priceStats[0] || ...`). -/
def aggregatePrices : List ℚ → PriceStats
  | [] => { avgPrice := 0, minPrice := 0, maxPrice := 0 }
  | q :: qs =>
    { avgPrice := (q :: qs).sum / ((q :: qs).length : ℚ)
      minPrice := qs.foldl min q
      maxPrice := qs.foldl max q }

/-- `GET /stats/overview`: the five independent counts and the price
aggregates over active available listings. -/
def statsOverview (s : Store) : StatsOverview :=
  { total := countDocuments s (fun b => b.isActive)
    available := countDocuments s (fun b => b.availability == "available" && b.isActive)
    sold := countDocuments s (fun b => b.availability == "sold" && b.isActive)
    petrol := countDocuments s (fun b => b.type == "Petrol" && b.isActive)
    electric := countDocuments s (fun b => b.type == "Electric" && b.isActive)
    priceStats :=
      aggregatePrices
        ((s.filter (fun e => e.2.isActive && e.2.availability == "available")).map
          (fun e => e.2.presentPrice)) }

/-! ### Helper lemmas -/

/-- Membership in a conditional singleton list. -/
theorem mem_if_singleton {c : Prop} [Decidable c] {a m : String} :
    (a ∈ if c then [m] else ([] : List String)) ↔ c ∧ a = m := by
  by_cases h : c <;> simp [h]

/-- Membership in a conditionally empty singleton list. -/
theorem mem_if_nil {c : Prop} [Decidable c] {a m : String} :
    (a ∈ if c then ([] : List String) else [m]) ↔ ¬c ∧ a = m := by
  by_cases h : c <;> simp [h]

/-! ### Sample documents -/

/-- A well-formed Petrol listing. -/
def samplePetrol : Listing :=
  { name := "Splendor", brand := "Hero", description := "well kept"
    type := "Petrol", condition := "Good"
    presentPrice := 45000, pastPrice := 60000
    engineCapacity := some "100cc", batteryCapacity := none
    availability := "available", isActive := true, viewCount := 3 }

/-- An Electric listing missing its battery capacity. -/
def electricNoBattery : Listing :=
  { name := "S1 Pro", brand := "Ola", description := ""
    type := "Electric", condition := "Excellent"
    presentPrice := 90000, pastPrice := 120000
    engineCapacity := none, batteryCapacity := none
    availability := "available", isActive := true, viewCount := 0 }

/-- A listing given away for free: `presentPrice = 0` with a positive
`pastPrice`. -/
def freeListing : Listing :=
  { name := "Old Pep", brand := "TVS", description := ""
    type := "Petrol", condition := "Fair"
    presentPrice := 0, pastPrice := 100
    engineCapacity := some "90cc", batteryCapacity := none
    availability := "available", isActive := true, viewCount := 0 }

/-- A listing whose original price is recorded as 0. -/
def zeroPastListing : Listing :=
  { samplePetrol with pastPrice := 0 }

/-! ### C1 — type-conditional capacity fields -/

/-- A string has length zero exactly when it is empty. -/
theorem str_length_eq_zero (s : String) : s.length = 0 ↔ s = "" := by
  obtain ⟨l⟩ := s
  simp [String.length, String.ext_iff, List.length_eq_zero]

/-- The engine-capacity message occurs among the validation errors exactly
for a Petrol listing whose `engineCapacity` is present but empty (the
validator is skipped on an absent path). -/
theorem engine_msg_mem_iff (b : Listing) :
    "Engine capacity is required for petrol scooters" ∈ validationErrors b ↔
      ∃ v, b.engineCapacity = some v ∧ b.type = "Petrol" ∧ v = "" := by
  rcases hE : b.engineCapacity with _ | v <;> rcases hB : b.batteryCapacity with _ | w <;>
    simp [validationErrors, requiredStr, mem_if_singleton, mem_if_nil, hE, hB,
      str_length_eq_zero, Nat.pos_iff_ne_zero]

/-- The battery-capacity message occurs among the validation errors exactly
for an Electric listing whose `batteryCapacity` is present but empty. -/
theorem battery_msg_mem_iff (b : Listing) :
    "Battery capacity is required for electric scooters" ∈ validationErrors b ↔
      ∃ v, b.batteryCapacity = some v ∧ b.type = "Electric" ∧ v = "" := by
  rcases hE : b.engineCapacity with _ | v <;> rcases hB : b.batteryCapacity with _ | w <;>
    simp [validationErrors, requiredStr, mem_if_singleton, mem_if_nil, hE, hB,
      str_length_eq_zero, Nat.pos_iff_ne_zero]

/-- Claim C1: a save of a Petrol listing with an empty or absent
`engineCapacity`, or of an Electric listing with an empty or absent
`batteryCapacity`, fails; when the capacity rule is respected, the save
carries neither capacity error message, so the write is never rejected on
that ground. -/
theorem save_enforces_capacity_rule (b : Listing) :
    (capacityRuleViolated b = true → ∃ es, save b = Except.error es) ∧
    (capacityRuleViolated b = false →
      "Engine capacity is required for petrol scooters" ∉ saveErrors (save b) ∧
      "Battery capacity is required for electric scooters" ∉ saveErrors (save b)) := by
  constructor
  · intro hv
    by_cases hve : validationErrors b = []
    · have hpc : ∃ e, preSaveCapacityCheck b = Except.error e := by
        unfold capacityRuleViolated at hv
        by_cases hA : (b.type == "Petrol" && jsStrFalsy b.engineCapacity) = true
        · exact ⟨"Engine capacity is required for petrol scooters",
            by simp [preSaveCapacityCheck, hA]⟩
        · have hA' := Bool.eq_false_iff.mpr hA
          have hB : (b.type == "Electric" && jsStrFalsy b.batteryCapacity) = true := by
            simpa [hA'] using hv
          exact ⟨"Battery capacity is required for electric scooters",
            by simp [preSaveCapacityCheck, hA', hB]⟩
      obtain ⟨e, he⟩ := hpc
      exact ⟨[e], by simp [save, hve, he]⟩
    · exact ⟨validationErrors b, by simp [save, hve]⟩
  · intro hv
    unfold capacityRuleViolated at hv
    have hAB := Bool.or_eq_false_iff.mp hv
    have hok : preSaveCapacityCheck b = Except.ok () := by
      simp [preSaveCapacityCheck, hAB.1, hAB.2]
    have hsub : ∀ a, a ∈ saveErrors (save b) → a ∈ validationErrors b := by
      intro a ha
      unfold save at ha
      by_cases hve : validationErrors b = []
      · simp [hve, hok, saveErrors] at ha
      · simpa [hve, saveErrors] using ha
    constructor
    · intro hmem
      obtain ⟨v, hE, hT, hv0⟩ := (engine_msg_mem_iff b).mp (hsub _ hmem)
      have : (b.type == "Petrol" && jsStrFalsy b.engineCapacity) = true := by
        simp [hT, hE, hv0, jsStrFalsy]
      simp [this] at hAB
    · intro hmem
      obtain ⟨v, hB, hT, hv0⟩ := (battery_msg_mem_iff b).mp (hsub _ hmem)
      have : (b.type == "Electric" && jsStrFalsy b.batteryCapacity) = true := by
        simp [hT, hB, hv0, jsStrFalsy]
      simp [this] at hAB

/-- Witness for C1: the capacity rule rejects `electricNoBattery` and
raises no capacity message for `samplePetrol`. -/
theorem save_enforces_capacity_rule_witness :
    (∃ es, save electricNoBattery = Except.error es) ∧
    ("Engine capacity is required for petrol scooters" ∉ saveErrors (save samplePetrol) ∧
      "Battery capacity is required for electric scooters" ∉ saveErrors (save samplePetrol)) :=
  ⟨(save_enforces_capacity_rule electricNoBattery).1 (by decide),
   (save_enforces_capacity_rule samplePetrol).2 (by decide)⟩

/-! ### C2 — the discount virtual -/

/-- Counterexample to claim C2: for a listing with `pastPrice = 100 > 0`
and `presentPrice = 0`, the claimed formula yields 100, but the virtual
returns 0 (the `if (this.pastPrice && this.presentPrice)` guard also
tests `presentPrice` for truthiness). -/
theorem discount_claim_counterexample :
    freeListing.pastPrice > 0 ∧
    jsRound ((freeListing.pastPrice - freeListing.presentPrice) /
      freeListing.pastPrice * 100) = 100 ∧
    discount freeListing = 0 ∧
    discount freeListing ≠
      jsRound ((freeListing.pastPrice - freeListing.presentPrice) /
        freeListing.pastPrice * 100) := by
  refine ⟨by norm_num [freeListing], ?_, ?_, ?_⟩ <;>
    norm_num [freeListing, discount, jsRound]

/-- Claim C2 as amended: the discount equals
`round((pastPrice − presentPrice) / pastPrice × 100)` whenever both
`pastPrice` and `presentPrice` are nonzero, and equals 0 when either is
zero. -/
theorem discount_formula (b : Listing) :
    (b.pastPrice ≠ 0 → b.presentPrice ≠ 0 →
      discount b = jsRound ((b.pastPrice - b.presentPrice) / b.pastPrice * 100)) ∧
    (b.pastPrice = 0 ∨ b.presentPrice = 0 → discount b = 0) := by
  constructor
  · intro h1 h2
    simp [discount, h1, h2]
  · rintro (h | h) <;> simp [discount, h]

/-- Witness for C2: the amended formula at `samplePetrol`
(25% off 60000 → 45000) and the zero guard at `zeroPastListing`. -/
theorem discount_formula_witness :
    discount samplePetrol =
      jsRound ((samplePetrol.pastPrice - samplePetrol.presentPrice) /
        samplePetrol.pastPrice * 100) ∧
    discount zeroPastListing = 0 :=
  ⟨(discount_formula samplePetrol).1 (by norm_num [samplePetrol]) (by norm_num [samplePetrol]),
   (discount_formula zeroPastListing).2 (Or.inl (by norm_num [zeroPastListing, samplePetrol]))⟩

/-! ### C3 — pagination arithmetic -/

/-- `ceilDiv` computes floor division plus an indicator of a nonzero
remainder, i.e. the ceiling of `n / lim`. -/
theorem ceilDiv_eq (n lim : Nat) (hl : 1 ≤ lim) :
    ceilDiv n lim = n / lim + if n % lim = 0 then 0 else 1 := by
  unfold ceilDiv
  have h1 : n + lim - 1 = n + (lim - 1) := by omega
  have h2 : (lim - 1) / lim = 0 := Nat.div_eq_of_lt (by omega)
  have h3 : (lim - 1) % lim = lim - 1 := Nat.mod_eq_of_lt (by omega)
  rw [h1, Nat.add_div (by omega : 0 < lim), h2, h3]
  have h4 := Nat.mod_lt n (show 0 < lim by omega)
  split_ifs <;> omega

/-- `ceilDiv n lim` pages of size `lim` cover all `n` items. -/
theorem le_ceilDiv_mul (n lim : Nat) (hl : 1 ≤ lim) : n ≤ ceilDiv n lim * lim := by
  rw [ceilDiv_eq n lim hl]
  by_cases h : n % lim = 0
  · simp [h]
    exact Nat.le_of_eq (Nat.div_mul_cancel (Nat.dvd_of_mod_eq_zero h)).symm
  · simp [h]
    have h5 := Nat.lt_mul_div_succ n (show 0 < lim by omega)
    calc n ≤ lim * (n / lim + 1) := Nat.le_of_lt h5
    _ = (n / lim + 1) * lim := Nat.mul_comm _ _

/-- Claim C3: for a query matching `l` (length `N`), page `p ≥ 1` and
limit `lim ≥ 1`, the returned page is the window of length
`min lim (N - (p-1)·lim)` at offset `(p-1)·lim`; `totalPages` is
`⌈N / lim⌉`; `hasNextPage` iff `p < totalPages`; `hasPrevPage` iff
`p > 1`; and a page beyond the last is empty with `hasNextPage = false`. -/
theorem pagination_window (l : List (Nat × Listing)) (p lim : Nat)
    (hp : 1 ≤ p) (hl : 1 ≤ lim) :
    ((paginate l p lim).1).length = min lim (l.length - (p - 1) * lim) ∧
    (paginate l p lim).1 = (l.drop ((p - 1) * lim)).take lim ∧
    (paginate l p lim).2.totalPages =
      l.length / lim + (if l.length % lim = 0 then 0 else 1) ∧
    ((paginate l p lim).2.hasNextPage = true ↔ p < (paginate l p lim).2.totalPages) ∧
    ((paginate l p lim).2.hasPrevPage = true ↔ 1 < p) ∧
    ((paginate l p lim).2.totalPages < p →
      (paginate l p lim).1 = [] ∧ (paginate l p lim).2.hasNextPage = false) := by
  refine ⟨?_, rfl, ?_, ?_, ?_, ?_⟩
  · simp [paginate, List.length_take, List.length_drop, Nat.min_comm]
  · exact ceilDiv_eq l.length lim hl
  · simp [paginate]
  · simp [paginate]
  · intro hbeyond
    simp only [paginate] at hbeyond ⊢
    have hcover : l.length ≤ (p - 1) * lim := by
      have h1 := le_ceilDiv_mul l.length lim hl
      have h2 : ceilDiv l.length lim ≤ p - 1 := by omega
      calc l.length ≤ ceilDiv l.length lim * lim := h1
      _ ≤ (p - 1) * lim := Nat.mul_le_mul_right lim h2
    constructor
    · rw [List.drop_eq_nil_of_le hcover]
      simp
    · simp
      omega

/-- A small concrete store. -/
def sampleStore : Store := [(1, samplePetrol), (2, freeListing)]

/-- Witness for C3: the pagination contract at a two-element store with
page 2 and limit 1. -/
theorem pagination_window_witness :
    (1 ≤ 2 ∧ 1 ≤ 1) ∧
    (((paginate sampleStore 2 1).1).length =
        min 1 (sampleStore.length - (2 - 1) * 1) ∧
      (paginate sampleStore 2 1).1 = (sampleStore.drop ((2 - 1) * 1)).take 1 ∧
      (paginate sampleStore 2 1).2.totalPages =
        sampleStore.length / 1 + (if sampleStore.length % 1 = 0 then 0 else 1) ∧
      ((paginate sampleStore 2 1).2.hasNextPage = true ↔
        2 < (paginate sampleStore 2 1).2.totalPages) ∧
      ((paginate sampleStore 2 1).2.hasPrevPage = true ↔ 1 < 2) ∧
      ((paginate sampleStore 2 1).2.totalPages < 2 →
        (paginate sampleStore 2 1).1 = [] ∧
        (paginate sampleStore 2 1).2.hasNextPage = false)) :=
  ⟨⟨by decide, by decide⟩, pagination_window sampleStore 2 1 (by decide) (by decide)⟩

/-! ### Store lemmas -/

/-- Looking up an id after updating that id sees the update. -/
theorem findById_updateById (s : Store) (i : Nat) (f : Listing → Listing) :
    findById (updateById s i f) i = (findById s i).map f := by
  induction s with
  | nil => rfl
  | cons e rest ih =>
    by_cases h : e.1 == i
    · simp [findById, updateById, List.find?, h]
    · simp only [findById, updateById, List.map_cons, List.find?, h, if_neg] at ih ⊢
      simp only [h, Bool.false_eq_true, if_false] at ih ⊢
      exact ih

/-- Two successive updates of the same id compose. -/
theorem updateById_updateById (s : Store) (i : Nat) (f g : Listing → Listing) :
    updateById (updateById s i f) i g = updateById s i (fun x => g (f x)) := by
  unfold updateById
  rw [List.map_map]
  congr 1
  funext e
  by_cases h : e.1 = i <;> simp [h]

/-- After deactivating an id, every store entry carrying that id is
inactive. -/
theorem mem_updateById_deactivated (s : Store) (i : Nat) (e : Nat × Listing)
    (he : e ∈ updateById s i (fun x => { x with isActive := false }))
    (hid : e.1 = i) : e.2.isActive = false := by
  unfold updateById at he
  obtain ⟨a, _, hmap⟩ := List.mem_map.mp he
  by_cases h : a.1 == i
  · rw [if_pos h] at hmap
    rw [← hmap]
  · rw [if_neg h] at hmap
    subst hmap
    exact absurd (by simp [hid]) h

/-! ### C4 — list filter defaults and lenient enum parameters -/

/-- Claim C4: every listing a list query returns is active and carries the
requested availability (whose query default is `"available"`); a `type`
or `condition` value outside its enum leaves the built filter unchanged
instead of being rejected. -/
theorem list_filter_contract (s : Store) (q : ListQuery) :
    (∀ e ∈ (listBikes s q).1, e.2.isActive = true ∧ e.2.availability = q.availability) ∧
    ({} : ListQuery).availability = "available" ∧
    (∀ t, t ∉ (["Petrol", "Electric"] : List String) →
      buildFilter { q with type := some t } = buildFilter { q with type := none }) ∧
    (∀ c, c ∉ (["Excellent", "Good", "Fair", "Poor"] : List String) →
      buildFilter { q with condition := some c } = buildFilter { q with condition := none }) := by
  refine ⟨?_, rfl, ?_, ?_⟩
  · intro e he
    have h1 : e ∈ s.filter (fun e => matchesFilter (buildFilter q) e.2) :=
      List.drop_subset _ _ (List.take_subset _ _ he)
    have h2 := (List.mem_filter.mp h1).2
    simp only [matchesFilter, buildFilter, Bool.and_eq_true, beq_iff_eq] at h2
    exact ⟨h2.1.1.1.1.1.1.1, h2.1.1.1.1.1.1.2⟩
  · intro t ht
    simp only [List.mem_cons, List.not_mem_nil, or_false, not_or] at ht
    simp [buildFilter]
    intro _
    exact ht
  · intro c hc'
    simp only [List.mem_cons, List.not_mem_nil, or_false, not_or] at hc'
    simp [buildFilter]
    intro _
    exact hc'

/-- Witness for C4: membership at the sample store with the default
query, and the ignored invalid enum values. -/
theorem list_filter_contract_witness :
    ((1, samplePetrol) ∈ (listBikes sampleStore {}).1 ∧
      (1, samplePetrol).2.isActive = true ∧
      (1, samplePetrol).2.availability = ({} : ListQuery).availability) ∧
    buildFilter { ({} : ListQuery) with type := some "Diesel" } =
      buildFilter { ({} : ListQuery) with type := none } ∧
    buildFilter { ({} : ListQuery) with condition := some "Mint" } =
      buildFilter { ({} : ListQuery) with condition := none } :=
  ⟨⟨by decide, (list_filter_contract sampleStore {}).1 (1, samplePetrol) (by decide)⟩,
   (list_filter_contract sampleStore {}).2.2.1 "Diesel" (by decide),
   (list_filter_contract sampleStore {}).2.2.2 "Mint" (by decide)⟩

/-! ### C5 — soft delete -/

/-- Success of a save returns the saved document itself. -/
theorem save_ok_eq (b b' : Listing) (h : save b = Except.ok b') : b' = b := by
  unfold save at h
  by_cases hve : validationErrors b = []
  · rw [if_neg (by simp [hve])] at h
    cases hpc : preSaveCapacityCheck b with
    | error e =>
      simp only [hpc] at h
      exact absurd h (by simp)
    | ok u =>
      simp only [hpc] at h
      exact (Except.ok.inj h).symm
  · rw [if_pos hve] at h
    exact absurd h (by simp)

/-- The sample Petrol listing after a soft delete. -/
def samplePetrolDeleted : Listing := { samplePetrol with isActive := false }

/-- The sample store after soft-deleting id 1. -/
def sampleStoreAfterDelete : Store := [(1, samplePetrolDeleted), (2, freeListing)]

/-- `samplePetrolDeleted` with its view count bumped by the detail
fetch. -/
def samplePetrolDeletedViewed : Listing := { samplePetrolDeleted with viewCount := 4 }

/-- `electricNoBattery` after a soft delete. -/
def electricNoBatteryDeleted : Listing := { electricNoBattery with isActive := false }

/-- A store holding a stored Electric record with no battery capacity —
reachable through `PUT /:id`, whose `findByIdAndUpdate` validates only
the updated paths and runs no save hooks. -/
def corruptedStore : Store := [(7, electricNoBattery)]

/-- `corruptedStore` after soft-deleting id 7. -/
def corruptedStoreDeleted : Store := [(7, electricNoBatteryDeleted)]

/-- Counterexample to claim C5 as stated: soft-deleting the
capacity-violating record succeeds, but the subsequent `GET /:id` does
not succeed and return the record — the `incrementViewCount()` save is
rejected by the pre-save capacity hook, so the route answers with a
server error. -/
theorem soft_delete_claim_counterexample :
    softDelete corruptedStore 7 = some (corruptedStoreDeleted, electricNoBatteryDeleted) ∧
    getBikeById corruptedStoreDeleted 7 =
      some (Except.error ["Battery capacity is required for electric scooters"]) :=
  ⟨by decide, rfl⟩

/-- Claim C5 as amended: after a soft delete the deleted id never appears
in the default list; the record still resolves (`GET /:id` is not a
not-found), and whenever re-saving it with the bumped view count passes
validation, the `GET` succeeds and returns the record. -/
theorem soft_delete_contract (s : Store) (i : Nat) (s' : Store) (d : Listing)
    (h : softDelete s i = some (s', d)) :
    d.isActive = false ∧
    findById s' i = some d ∧
    (getBikeById s' i).isSome = true ∧
    (∀ d', incrementViewCount d = Except.ok d' →
      getBikeById s' i = some (Except.ok (updateById s' i (fun _ => d'), d'))) ∧
    ∀ e ∈ (listBikes s' {}).1, e.1 ≠ i := by
  unfold softDelete at h
  cases hf : findById s i with
  | none => rw [hf] at h; exact absurd h (by simp)
  | some b =>
    rw [hf] at h
    have hs' : updateById s i (fun x => { x with isActive := false }) = s' :=
      congrArg Prod.fst (Option.some.inj h)
    have hd : ({ b with isActive := false } : Listing) = d :=
      congrArg Prod.snd (Option.some.inj h)
    have hfind : findById s' i = some d := by
      rw [← hs', findById_updateById, hf, ← hd]
      rfl
    refine ⟨by rw [← hd], hfind, ?_, ?_, ?_⟩
    · cases hinc : incrementViewCount d <;>
        simp [getBikeById, hfind, hinc]
    · intro d' hd'
      simp [getBikeById, hfind, hd']
    · intro e he hei
      have h1 : e ∈ s'.filter (fun e => matchesFilter (buildFilter {}) e.2) :=
        List.drop_subset _ _ (List.take_subset _ _ he)
      have hmem := List.mem_of_mem_filter h1
      have hmatch := (List.mem_filter.mp h1).2
      simp only [matchesFilter, buildFilter, Bool.and_eq_true, beq_iff_eq] at hmatch
      have hact : e.2.isActive = true := hmatch.1.1.1.1.1.1.1
      have hinact : e.2.isActive = false :=
        mem_updateById_deactivated s i e (hs' ▸ hmem) hei
      rw [hact] at hinact
      simp at hinact

/-- Witness for C5: soft-deleting id 1 of the sample store hides it from
the default list while the detail fetch still succeeds (its save
passes). -/
theorem soft_delete_contract_witness :
    samplePetrolDeleted.isActive = false ∧
    findById sampleStoreAfterDelete 1 = some samplePetrolDeleted ∧
    (getBikeById sampleStoreAfterDelete 1).isSome = true ∧
    getBikeById sampleStoreAfterDelete 1 =
      some (Except.ok
        (updateById sampleStoreAfterDelete 1 (fun _ => samplePetrolDeletedViewed),
          samplePetrolDeletedViewed)) ∧
    ∀ e ∈ (listBikes sampleStoreAfterDelete {}).1, e.1 ≠ 1 :=
  have h :=
    soft_delete_contract sampleStore 1 sampleStoreAfterDelete samplePetrolDeleted (by decide)
  ⟨h.1, h.2.1, h.2.2.1, h.2.2.2.1 samplePetrolDeletedViewed rfl, h.2.2.2.2⟩

/-! ### C7 — view count increment -/

/-- Counterexample to claim C7 as stated: the id 7 record exists, yet
`GET /:id` neither increments its view count nor returns it — the
increment's save is rejected by the pre-save capacity hook and the route
answers with a server error. -/
theorem view_count_claim_counterexample :
    findById corruptedStore 7 = some electricNoBattery ∧
    getBikeById corruptedStore 7 =
      some (Except.error ["Battery capacity is required for electric scooters"]) :=
  ⟨by decide, rfl⟩

/-- Claim C7 as amended: when the id resolves and re-saving the record
with its bumped view count passes validation and the pre-save hook, the
`GET` stores a view count larger by exactly one and returns the record
carrying that count. -/
theorem get_by_id_increments_view (s : Store) (i : Nat) (b b' : Listing)
    (h : findById s i = some b)
    (hsave : incrementViewCount b = Except.ok b') :
    b' = { b with viewCount := b.viewCount + 1 } ∧
    b'.viewCount = b.viewCount + 1 ∧
    getBikeById s i = some (Except.ok (updateById s i (fun _ => b'), b')) ∧
    findById (updateById s i (fun _ => b')) i = some b' := by
  have hb' : b' = { b with viewCount := b.viewCount + 1 } := save_ok_eq _ _ hsave
  refine ⟨hb', by rw [hb'], ?_, ?_⟩
  · simp [getBikeById, h, hsave]
  · rw [findById_updateById, h]
    rfl

/-- `samplePetrol` with its view count bumped by the detail fetch. -/
def samplePetrolViewed : Listing := { samplePetrol with viewCount := 4 }

/-- Witness for C7 at the sample store. -/
theorem get_by_id_increments_view_witness :
    samplePetrolViewed = { samplePetrol with viewCount := samplePetrol.viewCount + 1 } ∧
    samplePetrolViewed.viewCount = samplePetrol.viewCount + 1 ∧
    getBikeById sampleStore 1 =
      some (Except.ok
        (updateById sampleStore 1 (fun _ => samplePetrolViewed), samplePetrolViewed)) ∧
    findById (updateById sampleStore 1 (fun _ => samplePetrolViewed)) 1 =
      some samplePetrolViewed :=
  get_by_id_increments_view sampleStore 1 samplePetrol samplePetrolViewed (by decide) rfl

/-! ### C9 — soft delete idempotence -/

/-- Claim C9: a second soft delete of the same id succeeds and leaves the
store and the returned record exactly as after the first. -/
theorem soft_delete_idempotent (s : Store) (i : Nat) (s₁ : Store) (d₁ : Listing)
    (h : softDelete s i = some (s₁, d₁)) :
    softDelete s₁ i = some (s₁, d₁) := by
  unfold softDelete at h ⊢
  cases hf : findById s i with
  | none => rw [hf] at h; exact absurd h (by simp)
  | some b =>
    rw [hf] at h
    have hs₁ : updateById s i (fun x => { x with isActive := false }) = s₁ :=
      congrArg Prod.fst (Option.some.inj h)
    have hd₁ : ({ b with isActive := false } : Listing) = d₁ :=
      congrArg Prod.snd (Option.some.inj h)
    have hf₁ : findById s₁ i = some d₁ := by
      rw [← hs₁, findById_updateById, hf, ← hd₁]
      rfl
    simp only [hf₁]
    have hupd : updateById s₁ i (fun x => { x with isActive := false }) = s₁ := by
      rw [← hs₁, updateById_updateById]
    have hdd : ({ d₁ with isActive := false } : Listing) = d₁ := by
      rw [← hd₁]
    simp only [hupd, hdd]

/-- Witness for C9: deleting id 1 of the already-deleted sample store is
a success returning the unchanged state. -/
theorem soft_delete_idempotent_witness :
    softDelete sampleStoreAfterDelete 1 = some (sampleStoreAfterDelete, samplePetrolDeleted) :=
  soft_delete_idempotent sampleStore 1 sampleStoreAfterDelete samplePetrolDeleted (by decide)

/-! ### C6 — price range endpoint -/

/-- Claim C6: the price range endpoint answers 400 whenever a bound fails
to parse, is negative, or `min > max`; a successful answer contains only
active, available listings priced within the closed interval. -/
theorem price_range_contract (s : Store) (minS maxS : String) (p lim : Nat) :
    ((parseIntJS minS = none ∨ parseIntJS maxS = none) →
      getBikesByPriceRange s minS maxS p lim = Except.error 400) ∧
    (∀ mn mx, parseIntJS minS = some mn → parseIntJS maxS = some mx →
      ((mn < 0 ∨ mx < 0 ∨ mx < mn) →
        getBikesByPriceRange s minS maxS p lim = Except.error 400) ∧
      (∀ res pg, getBikesByPriceRange s minS maxS p lim = Except.ok (res, pg) →
        ∀ e ∈ res, e.2.isActive = true ∧ e.2.availability = "available" ∧
          (mn : ℚ) ≤ e.2.presentPrice ∧ e.2.presentPrice ≤ (mx : ℚ))) := by
  constructor
  · intro hbad
    rcases hmin : parseIntJS minS with _ | mn <;>
      rcases hmax : parseIntJS maxS with _ | mx
    · simp [getBikesByPriceRange, hmin, hmax]
    · simp [getBikesByPriceRange, hmin, hmax]
    · simp [getBikesByPriceRange, hmin, hmax]
    · simp [hmin, hmax] at hbad
  · intro mn mx hmin hmax
    constructor
    · intro hbad
      have hcond : (mn < 0 || mx < 0 || decide (mn > mx)) = true := by
        rcases hbad with h | h | h <;> simp [h]
      simp [getBikesByPriceRange, hmin, hmax, hcond]
    · intro res pg hok e he
      simp only [getBikesByPriceRange, hmin, hmax] at hok
      by_cases hcond : (mn < 0 || mx < 0 || decide (mn > mx)) = true
      · rw [if_pos hcond] at hok
        exact absurd hok (by simp)
      · rw [if_neg hcond] at hok
        have hres : res = (paginate (findByPriceRange s mn mx) p lim).1 :=
          (congrArg Prod.fst (Except.ok.inj hok)).symm
        rw [hres] at he
        have h1 : e ∈ findByPriceRange s mn mx :=
          List.drop_subset _ _ (List.take_subset _ _ he)
        have h2 := (List.mem_filter.mp h1).2
        simp only [Bool.and_eq_true, decide_eq_true_eq, beq_iff_eq] at h2
        exact ⟨h2.2, h2.1.2, h2.1.1.1, h2.1.1.2⟩

/-- Witness for C6: a non-numeric bound and an inverted range are both
rejected, and a valid range query over the sample store yields only
in-range available listings. -/
theorem price_range_contract_witness :
    getBikesByPriceRange sampleStore "abc" "50" 1 10 = Except.error 400 ∧
    getBikesByPriceRange sampleStore "50000" "20000" 1 10 = Except.error 400 ∧
    ((1, samplePetrol).2.isActive = true ∧
      (1, samplePetrol).2.availability = "available" ∧
      ((100 : Int) : ℚ) ≤ (1, samplePetrol).2.presentPrice ∧
      (1, samplePetrol).2.presentPrice ≤ ((50000 : Int) : ℚ)) :=
  ⟨(price_range_contract sampleStore "abc" "50" 1 10).1 (Or.inl (by decide)),
   ((price_range_contract sampleStore "50000" "20000" 1 10).2 50000 20000
      (by decide) (by decide)).1 (Or.inr (Or.inr (by decide))),
   ((price_range_contract sampleStore "100" "50000" 1 10).2 100 50000
      (by decide) (by decide)).2
     (paginate (findByPriceRange sampleStore 100 50000) 1 10).1
     (paginate (findByPriceRange sampleStore 100 50000) 1 10).2
     rfl (1, samplePetrol) (by decide)⟩

/-! ### C8 — statistics overview -/

/-- A left fold of `min` lands on one of its inputs. -/
theorem foldl_min_mem (qs : List ℚ) (q : ℚ) : qs.foldl min q ∈ q :: qs := by
  induction qs generalizing q with
  | nil => simp
  | cons x xs ih =>
    simp only [List.foldl_cons]
    rcases List.mem_cons.mp (ih (min q x)) with h1 | h1
    · rcases min_choice q x with hm | hm
      · exact List.mem_cons.mpr (Or.inl (h1.trans hm))
      · exact List.mem_cons.mpr (Or.inr (List.mem_cons.mpr (Or.inl (h1.trans hm))))
    · exact List.mem_cons.mpr (Or.inr (List.mem_cons.mpr (Or.inr h1)))

/-- A left fold of `min` bounds every input from below. -/
theorem foldl_min_le (qs : List ℚ) (q : ℚ) : ∀ x ∈ q :: qs, qs.foldl min q ≤ x := by
  induction qs generalizing q with
  | nil =>
    intro x hx
    simp only [List.foldl_nil]
    simp only [List.mem_singleton] at hx
    exact le_of_eq hx.symm
  | cons y ys ih =>
    intro x hx
    simp only [List.foldl_cons]
    have hbase : ys.foldl min (min q y) ≤ min q y :=
      ih (min q y) (min q y) (List.mem_cons_self _ _)
    rcases List.mem_cons.mp hx with h1 | h1
    · exact le_trans hbase (le_trans (min_le_left _ _) (le_of_eq h1.symm))
    · rcases List.mem_cons.mp h1 with h2 | h2
      · exact le_trans hbase (le_trans (min_le_right _ _) (le_of_eq h2.symm))
      · exact ih (min q y) x (List.mem_cons_of_mem _ h2)

/-- A left fold of `max` lands on one of its inputs. -/
theorem foldl_max_mem (qs : List ℚ) (q : ℚ) : qs.foldl max q ∈ q :: qs := by
  induction qs generalizing q with
  | nil => simp
  | cons x xs ih =>
    simp only [List.foldl_cons]
    rcases List.mem_cons.mp (ih (max q x)) with h1 | h1
    · rcases max_choice q x with hm | hm
      · exact List.mem_cons.mpr (Or.inl (h1.trans hm))
      · exact List.mem_cons.mpr (Or.inr (List.mem_cons.mpr (Or.inl (h1.trans hm))))
    · exact List.mem_cons.mpr (Or.inr (List.mem_cons.mpr (Or.inr h1)))

/-- A left fold of `max` bounds every input from above. -/
theorem le_foldl_max (qs : List ℚ) (q : ℚ) : ∀ x ∈ q :: qs, x ≤ qs.foldl max q := by
  induction qs generalizing q with
  | nil =>
    intro x hx
    simp only [List.foldl_nil]
    simp only [List.mem_singleton] at hx
    exact le_of_eq hx
  | cons y ys ih =>
    intro x hx
    simp only [List.foldl_cons]
    have hbase : max q y ≤ ys.foldl max (max q y) :=
      ih (max q y) (max q y) (List.mem_cons_self _ _)
    rcases List.mem_cons.mp hx with h1 | h1
    · exact le_trans (le_of_eq h1) (le_trans (le_max_left _ _) hbase)
    · rcases List.mem_cons.mp h1 with h2 | h2
      · exact le_trans (le_of_eq h2) (le_trans (le_max_right _ _) hbase)
      · exact ih (max q y) x (List.mem_cons_of_mem _ h2)

/-- The `presentPrice`s of the active available listings — the group the
`$match` stage of the stats aggregation selects. -/
def activeAvailablePrices (s : Store) : List ℚ :=
  (s.filter (fun e => e.2.isActive && e.2.availability == "available")).map
    (fun e => e.2.presentPrice)

/-- Claim C8: the overview counts are the claimed counts over active
listings, and the price aggregates are the average, minimum and maximum
`presentPrice` over exactly the active available listings (0 defaults for
an empty group). -/
theorem stats_overview_contract (s : Store) :
    (statsOverview s).total = (s.filter (fun e => e.2.isActive)).length ∧
    (statsOverview s).available =
      ((s.filter (fun e => e.2.isActive)).filter (fun e => e.2.availability == "available")).length ∧
    (statsOverview s).sold =
      ((s.filter (fun e => e.2.isActive)).filter (fun e => e.2.availability == "sold")).length ∧
    (statsOverview s).petrol =
      ((s.filter (fun e => e.2.isActive)).filter (fun e => e.2.type == "Petrol")).length ∧
    (statsOverview s).electric =
      ((s.filter (fun e => e.2.isActive)).filter (fun e => e.2.type == "Electric")).length ∧
    (activeAvailablePrices s = [] →
      (statsOverview s).priceStats = ⟨0, 0, 0⟩) ∧
    (activeAvailablePrices s ≠ [] →
      (statsOverview s).priceStats.avgPrice * ((activeAvailablePrices s).length : ℚ) =
        (activeAvailablePrices s).sum ∧
      (statsOverview s).priceStats.minPrice ∈ activeAvailablePrices s ∧
      (∀ x ∈ activeAvailablePrices s, (statsOverview s).priceStats.minPrice ≤ x) ∧
      (statsOverview s).priceStats.maxPrice ∈ activeAvailablePrices s ∧
      (∀ x ∈ activeAvailablePrices s, x ≤ (statsOverview s).priceStats.maxPrice)) := by
  refine ⟨?_, ?_, ?_, ?_, ?_, ?_, ?_⟩
  · rfl
  · simp only [statsOverview, countDocuments, List.filter_filter]
  · simp only [statsOverview, countDocuments, List.filter_filter]
  · simp only [statsOverview, countDocuments, List.filter_filter]
  · simp only [statsOverview, countDocuments, List.filter_filter]
  · intro h
    show aggregatePrices (activeAvailablePrices s) = ⟨0, 0, 0⟩
    rw [h]
    rfl
  · intro h
    have hshow : (statsOverview s).priceStats = aggregatePrices (activeAvailablePrices s) := rfl
    rcases hp : activeAvailablePrices s with _ | ⟨q, qs⟩
    · exact absurd hp h
    · rw [hshow, hp]
      refine ⟨?_, foldl_min_mem qs q, foldl_min_le qs q, foldl_max_mem qs q, le_foldl_max qs q⟩
      have hlen : (((q :: qs).length : ℚ)) ≠ 0 := by
        simp
        positivity
      simp only [aggregatePrices]
      exact div_mul_cancel₀ _ hlen

/-- Witness for C8: the price aggregates at the sample store, whose
active available price group is nonempty. -/
theorem stats_overview_contract_witness :
    activeAvailablePrices sampleStore ≠ [] ∧
    ((statsOverview sampleStore).priceStats.avgPrice *
        ((activeAvailablePrices sampleStore).length : ℚ) =
      (activeAvailablePrices sampleStore).sum ∧
    (statsOverview sampleStore).priceStats.minPrice ∈ activeAvailablePrices sampleStore ∧
    (∀ x ∈ activeAvailablePrices sampleStore,
      (statsOverview sampleStore).priceStats.minPrice ≤ x) ∧
    (statsOverview sampleStore).priceStats.maxPrice ∈ activeAvailablePrices sampleStore ∧
    (∀ x ∈ activeAvailablePrices sampleStore,
      x ≤ (statsOverview sampleStore).priceStats.maxPrice)) :=
  ⟨by decide, (stats_overview_contract sampleStore).2.2.2.2.2.2 (by decide)⟩

/-! ### C10 — type endpoint strictness vs list-filter leniency -/

/-- Claim C10: `GET /type/:type` answers 400 for a path type outside
`{Petrol, Electric}` — while the list endpoint's query `type` filter
ignores the same value — and a successful answer contains only active,
available listings of the requested type. -/
theorem type_endpoint_contract (s : Store) (t : String) (p lim : Nat) :
    (t ≠ "Petrol" → t ≠ "Electric" →
      getBikesByType s t p lim = Except.error 400 ∧
      ∀ q : ListQuery,
        buildFilter { q with type := some t } = buildFilter { q with type := none }) ∧
    (∀ res pg, getBikesByType s t p lim = Except.ok (res, pg) →
      ∀ e ∈ res, e.2.type = t ∧ e.2.isActive = true ∧ e.2.availability = "available") := by
  constructor
  · intro h1 h2
    constructor
    · simp [getBikesByType, h1, h2]
    · intro q
      simp [buildFilter]
      intro _
      exact ⟨h1, h2⟩
  · intro res pg hok e he
    by_cases ht : (["Petrol", "Electric"] : List String).contains t
    · simp only [getBikesByType, ht, Bool.not_true, Bool.false_eq_true, if_false] at hok
      have hres : res = (paginate (findByType s t) p lim).1 :=
        (congrArg Prod.fst (Except.ok.inj hok)).symm
      rw [hres] at he
      have hmem : e ∈ findByType s t :=
        List.drop_subset _ _ (List.take_subset _ _ he)
      have hm := (List.mem_filter.mp hmem).2
      simp only [Bool.and_eq_true, beq_iff_eq] at hm
      exact ⟨hm.1.1, hm.2, hm.1.2⟩
    · have hcond : ¬t = "Petrol" ∧ ¬t = "Electric" := by simpa using ht
      exact absurd hok (by simp [getBikesByType, hcond.1, hcond.2])

/-- Witness for C10: the invalid type `"Hybrid"` is rejected where the
list filter ignores it, and the Petrol page over the sample store
contains only active available Petrol listings. -/
theorem type_endpoint_contract_witness :
    (getBikesByType sampleStore "Hybrid" 1 10 = Except.error 400 ∧
      buildFilter { ({} : ListQuery) with type := some "Hybrid" } =
        buildFilter { ({} : ListQuery) with type := none }) ∧
    ((1, samplePetrol).2.type = "Petrol" ∧
      (1, samplePetrol).2.isActive = true ∧
      (1, samplePetrol).2.availability = "available") :=
  ⟨⟨((type_endpoint_contract sampleStore "Hybrid" 1 10).1 (by decide) (by decide)).1,
    ((type_endpoint_contract sampleStore "Hybrid" 1 10).1 (by decide) (by decide)).2 {}⟩,
   (type_endpoint_contract sampleStore "Petrol" 1 10).2
     (paginate (findByType sampleStore "Petrol") 1 10).1
     (paginate (findByType sampleStore "Petrol") 1 10).2
     rfl (1, samplePetrol) (by decide)⟩
